import Mathlib

/-!
Shallow embedding of the DashApp repository's session/response logic.

Sources embedded here:
- `src/report_agent.py` (`SimpleMCPClient`: `analyze_territories`,
  `analyze_territories_with_file_handle`, `_extract_final_response`,
  `_extract_file_handle_from_response`);
- `src/dash_app.py` (`extract_report_handle`, `fetch_report_content`,
  `process_query`);
- `src/report_display.py` (`ReportDisplay.format_markdown_for_dash`).

External collaborators (the MCP tool agent reached through
`agent.ainvoke`, the `json.loads` parser, and the `markdown.markdown`
formatter) are modelled as explicit function parameters; an agent
invocation is recorded in an explicit world state so that theorems can
speak about how many remote calls happen and with which client and
thread id.  Python exceptions are modelled with `Except`: a function
that can raise returns `Except String α`, and `.error e` is an
exception carrying message `e` propagating to the caller.
-/

namespace DashApp

/-- One message of an agent response, as inspected by the Python code:
`str(message.__class__)` is the `className` string and `message.content`
the `content` string. -/
structure Message where
  className : String
  content : String
deriving DecidableEq, Repr

/-- The agent's response object: either a dict with a `'messages'` list,
or anything else (`isinstance(response, dict) and 'messages' in response`
fails). -/
inductive AgentResponse where
  | withMessages : List Message → AgentResponse
  | other : AgentResponse
deriving DecidableEq, Repr

/-- One call to `agent.ainvoke`, recording which client object issued it,
the thread id in its `config` (`none` when `ainvoke` is called without a
`config`), and the user-supplied text of the request. -/
structure Invocation where
  clientId : Nat
  threadId : Option String
  userText : String
deriving DecidableEq, Repr

/-- Process-wide state: a counter of `SimpleMCPClient` objects constructed
so far (used as the identity of each client object) and the log of agent
invocations issued so far, in order. -/
structure WorldState where
  nextClientId : Nat
  invocations : List Invocation
deriving DecidableEq, Repr

/-- The fields of `SimpleMCPClient` that the embedded operations read:
its object identity, its `session_id`, its `default_thread_id`
(`f"conversation_{session_id}"`), and whether `connect()` has bound an
agent (`self.agent is not None`). -/
structure SimpleMCPClient where
  clientId : Nat
  session_id : String
  default_thread_id : String
  connected : Bool
deriving DecidableEq, Repr

/-- `SimpleMCPClient.__init__`: allocates a new client object with the
given session id, default thread id `"conversation_" ++ session_id`, and
no agent bound yet (`self.agent = None`). -/
def SimpleMCPClient.init (sessionId : String) (w : WorldState) :
    SimpleMCPClient × WorldState :=
  ({ clientId := w.nextClientId
     session_id := sessionId
     default_thread_id := "conversation_" ++ sessionId
     connected := false },
   { w with nextClientId := w.nextClientId + 1 })

/-- `SimpleMCPClient.connect`: binds the agent, after which
`self.agent` is no longer `None`. -/
def SimpleMCPClient.connect (c : SimpleMCPClient) : SimpleMCPClient :=
  { c with connected := true }

/-- Python truthiness of `s.strip()`: a string strips to empty exactly
when all of its characters are whitespace. -/
def isBlankStr (s : String) : Bool :=
  s.data.all Char.isWhitespace

/-- `pat in s` for strings, scanned as Python's substring test:
some position of `s` starts with `pat`. -/
def containsSub (pat : List Char) : List Char → Bool
  | [] => pat.isEmpty
  | c :: rest => pat.isPrefixOf (c :: rest) || containsSub pat rest

/-- `'AI' in str(message.__class__)`. -/
def isAIMessage (m : Message) : Bool :=
  containsSub ['A', 'I'] m.className.data

/-- The condition of `_extract_final_response`'s loop body:
`'AI' in str(message.__class__)` and `message.content` and
`message.content.strip()`. -/
def goodMsg (m : Message) : Bool :=
  isAIMessage m && !(m.content == "") && !(isBlankStr m.content)

/-- The `for message in reversed(messages)` loop of
`_extract_final_response`, run on the already-reversed list: return the
content of the first message satisfying `goodMsg`. -/
def extractLoop : List Message → Option String
  | [] => none
  | m :: rest => if goodMsg m then some m.content else extractLoop rest

/-- Canned reply of `_extract_final_response` when no AI message with
visible content exists. -/
def cannedNoVisible : String :=
  "✅ Territory analysis completed! Reports have been generated and saved by the system."

/-- Canned reply of `_extract_final_response` when the response is not a
dict with a `'messages'` list. -/
def cannedNotDict : String :=
  "✅ Analysis completed successfully."

/-- `SimpleMCPClient._extract_final_response` (src/report_agent.py,
lines 168-181). -/
def extract_final_response : AgentResponse → String
  | .withMessages ms =>
    match extractLoop ms.reverse with
    | some c => c
    | none => cannedNoVisible
  | .other => cannedNotDict

/-- `SimpleMCPClient._extract_file_handle_from_response`
(src/report_agent.py, lines 183-198): the same reversed scan; when no AI
message with visible content is found (or the response is not a dict
with messages), the whole response object is returned unchanged. -/
def extract_file_handle_from_response : AgentResponse → String ⊕ AgentResponse
  | .withMessages ms =>
    match extractLoop ms.reverse with
    | some c => .inl c
    | none => .inr (.withMessages ms)
  | .other => .inr .other

/-- The invocation `analyze_territories` issues: the client's own id, a
`config` carrying `thread_id or default_thread_id`, and the user query. -/
def analyzeInvocation (c : SimpleMCPClient) (q : String) (tid : Option String) :
    Invocation :=
  { clientId := c.clientId
    threadId := some (tid.getD c.default_thread_id)
    userText := q }

/-- `SimpleMCPClient.analyze_territories` (src/report_agent.py, lines
92-127).  `oracle` stands for the external `agent.ainvoke`; the body has
no `try`, so an `oracle` failure propagates (`Except.error`), and a
missing agent raises `ValueError` before any invocation happens. -/
def analyze_territories (c : SimpleMCPClient) (q : String) (tid : Option String)
    (oracle : Invocation → Except String AgentResponse) (w : WorldState) :
    Except String String × WorldState :=
  if c.connected then
    let inv := analyzeInvocation c q tid
    let w' := { w with invocations := w.invocations ++ [inv] }
    match oracle inv with
    | .error e => (.error e, w')
    | .ok r => (.ok (extract_final_response r), w')
  else
    (.error "Agent not connected. Please call connect() first.", w)

/-- The dict returned by `analyze_territories_with_file_handle`. -/
structure HandleResult where
  response : String
  raw_content : String ⊕ AgentResponse
deriving DecidableEq, Repr

/-- `SimpleMCPClient.analyze_territories_with_file_handle`
(src/report_agent.py, lines 129-166): a single `ainvoke`, then both dict
fields are computed from that one response. -/
def analyze_territories_with_file_handle (c : SimpleMCPClient) (q : String)
    (tid : Option String) (oracle : Invocation → Except String AgentResponse)
    (w : WorldState) : Except String HandleResult × WorldState :=
  if c.connected then
    let inv := analyzeInvocation c q tid
    let w' := { w with invocations := w.invocations ++ [inv] }
    match oracle inv with
    | .error e => (.error e, w')
    | .ok r =>
      (.ok { response := extract_final_response r
             raw_content := extract_file_handle_from_response r }, w')
  else
    (.error "Agent not connected. Please call connect() first.", w)

/-! ## Handle extraction (src/dash_app.py, lines 193-204)

`extract_report_handle` runs `re.search(r'Report Data Handle.*?`([^`]+)`',
text)` (no `DOTALL`, so `.` does not cross a newline) and returns group 1
or `None`.  The regex is embedded as an explicit scanner with Python's
`re.search` semantics: the match starts at the leftmost position where
the whole pattern can match; the lazy gap `.*?` grows one character at a
time over non-newline characters; `([^`]+)` then captures a non-empty
run of non-backtick characters that must be closed by a backtick. -/

/-- The backtick character (U+0060), kept as a named constant. -/
def btk : Char := Char.ofNat 96

/-- The literal alternative `Report Data Handle` of the handle regex. -/
def phraseChars : List Char :=
  ['R', 'e', 'p', 'o', 'r', 't', ' ', 'D', 'a', 't', 'a', ' ',
   'H', 'a', 'n', 'd', 'l', 'e']

/-- Matching `([^`]+)` followed by a closing backtick at the head of `s`:
the capture is the maximal run of non-backtick characters, which must be
non-empty and must be terminated by a backtick inside `s`. -/
def takeDelimited (s : List Char) : Option (List Char) :=
  let run := s.takeWhile (fun c => c ≠ btk)
  if run = [] then none
  else if s.drop run.length = [] then none
  else some run

/-- The lazy gap `.*?` followed by `` ` ``: scan forward over characters;
a newline kills the match at this start position (no `DOTALL`); at a
backtick, try the delimited capture, and on failure let the gap swallow
the backtick (`.` matches `` ` ``) and keep scanning. -/
def scanGap : List Char → Option (List Char)
  | [] => none
  | c :: rest =>
    if c = btk then
      match takeDelimited rest with
      | some v => some v
      | none => scanGap rest
    else if c = '\n' then none
    else scanGap rest

/-- `re.search` over the whole pattern: try each start position from the
left; at a position where the literal phrase matches, attempt the gap +
capture on the remainder, and otherwise (or on failure) move one
character to the right. -/
def searchHandle : List Char → Option (List Char)
  | [] => none
  | c :: rest =>
    if phraseChars.isPrefixOf (c :: rest) then
      match scanGap ((c :: rest).drop phraseChars.length) with
      | some v => some v
      | none => searchHandle rest
    else searchHandle rest

/-- `extract_report_handle` (src/dash_app.py, lines 193-204): the regex
search's group 1, or `None` when there is no match.  (The `try` in the
source is vacuous: none of the operations it wraps can raise.) -/
def extract_report_handle (s : String) : Option String :=
  (searchHandle s.data).map fun l => String.mk l

/-- `phraseChars` (src/dash_app.py, line 197) occurs somewhere in `s`. -/
def containsPhrase (s : List Char) : Bool :=
  containsSub phraseChars s

/-! ## Handle resolution (src/dash_app.py, lines 207-251)

`fetch_report_content` constructs a brand-new `SimpleMCPClient`,
connects it, and calls `client.agent.ainvoke({"messages": ...})` with no
`config` (hence no thread id).  The reply's last AI message content is
then scanned for a fenced ```json block (regex
```` r'```json\n(.*?)\n```' ```` with `DOTALL`); if the block body
parses as JSON the `'markdown_content'` field is returned, otherwise the
raw content.  `json.loads` is external and is modelled by the `parse`
parameter, a partial map from the block body to a string-valued JSON
object. -/

/-- The opening marker ```` ```json ```` plus newline of the fenced-block
regex. -/
def jsonOpenMark : List Char :=
  [btk, btk, btk, 'j', 's', 'o', 'n', '\n']

/-- The closing marker: newline plus ```` ``` ````. -/
def jsonCloseMark : List Char :=
  ['\n', btk, btk, btk]

/-- The lazy body `(.*?)` with `DOTALL`, closed by `jsonCloseMark`: the
body is everything strictly before the first occurrence of the closing
marker, and the match fails when no closing marker follows. -/
def takeUntilClose : List Char → Option (List Char)
  | [] => none
  | c :: rest =>
    if jsonCloseMark.isPrefixOf (c :: rest) then some []
    else
      match takeUntilClose rest with
      | some body => some (c :: body)
      | none => none

/-- `re.search` for the fenced-json-block pattern: leftmost opening
marker from which a closing marker can be reached. -/
def findJsonBlock : List Char → Option (List Char)
  | [] => none
  | c :: rest =>
    if jsonOpenMark.isPrefixOf (c :: rest) then
      match takeUntilClose ((c :: rest).drop jsonOpenMark.length) with
      | some body => some body
      | none => findJsonBlock rest
    else findJsonBlock rest

/-- The JSON-block branch of `fetch_report_content`'s message loop
(src/dash_app.py, lines 229-240): fenced block found and parsed →
`data.get('markdown_content', 'No markdown content found')`; block
absent or `json.JSONDecodeError` → the raw content. -/
def parse_report_reply (parse : String → Option (List (String × String)))
    (content : String) : String :=
  match findJsonBlock content.data with
  | some body =>
    match parse (String.mk body) with
    | some data => (data.lookup "markdown_content").getD "No markdown content found"
    | none => content
  | none => content

/-- The message condition of `fetch_report_content`'s loop: `'AI' in
str(message.__class__)` and `message.content` — note no `.strip()`
here, unlike `_extract_final_response`. -/
def goodFetchMsg (m : Message) : Bool :=
  isAIMessage m && !(m.content == "")

/-- `fetch_report_content`'s `for message in reversed(messages)` loop on
the already-reversed list: the first AI message with content is parsed
and returned from inside the loop. -/
def fetchLoop (parse : String → Option (List (String × String))) :
    List Message → Option String
  | [] => none
  | m :: rest =>
    if goodFetchMsg m then some (parse_report_reply parse m.content)
    else fetchLoop parse rest

/-- The response-processing part of `fetch_report_content`: the loop on
a dict-with-messages response, with the `"Error: Could not extract
report content"` fall-through otherwise. -/
def fetch_parse_response (parse : String → Option (List (String × String))) :
    AgentResponse → String
  | .withMessages ms =>
    (fetchLoop parse ms.reverse).getD "Error: Could not extract report content"
  | .other => "Error: Could not extract report content"

/-- The invocation `fetch_report_content` issues: the freshly created
client's id, no thread id (`ainvoke` is called without a `config`), and
the literal request text. -/
def fetchInvocation (handle : String) (w : WorldState) : Invocation :=
  { clientId := w.nextClientId
    threadId := none
    userText := "Get data from handle: " ++ handle }

/-- `fetch_report_content` (src/dash_app.py, lines 207-251): create a
new `SimpleMCPClient`, connect, invoke the agent once with no `config`,
parse the reply; any exception escaping `get_report_data` (modelled: an
`oracle` failure) is caught by the outer `try` and becomes an
`"Error loading report: ..."` string.  The function itself never
raises. -/
def fetch_report_content (handle : String) (sessionId : String)
    (parse : String → Option (List (String × String)))
    (oracle : Invocation → Except String AgentResponse) (w : WorldState) :
    String × WorldState :=
  let cw := SimpleMCPClient.init sessionId w
  let c := cw.1.connect
  let inv : Invocation :=
    { clientId := c.clientId
      threadId := none
      userText := "Get data from handle: " ++ handle }
  let w' := { cw.2 with invocations := cw.2.invocations ++ [inv] }
  match oracle inv with
  | .error e => ("Error loading report: " ++ e, w')
  | .ok r => (fetch_parse_response parse r, w')

/-! ## Dash components

A skeletal model of the Dash/HTML component trees the callbacks build;
styling dictionaries are presentation-only and omitted. -/

/-- A Dash component tree. -/
inductive Component where
  | div : List Component → Component
  | textDiv : String → Component
  | h5 : String → Component
  | h6 : String → Component
  | para : String → Component
  | small : String → Component
  | icon : Component
  | hrule : Component
  | markdownC : String → Component
  | alert : List Component → Component

/-- The `user_message` div built by `process_query`. -/
def userMessageDiv (q : String) : Component :=
  .div [.textDiv "Me:", .textDiv q]

/-- The `agent_message` div built by `process_query`. -/
def agentMessageDiv (r : String) : Component :=
  .div [.textDiv "Agent:", .textDiv r]

/-- The `error_message` div built by `process_query`'s `except` branch. -/
def errorMessageDiv (e : String) : Component :=
  .div [.textDiv "Agent:", .textDiv ("Error: " ++ e)]

/-- The report display `process_query` puts into the left panel when a
handle was found and resolved. -/
def reportDisplayDiv (handle markdownContent : String) : Component :=
  .div [.h5 "📊 Territory Analysis Report",
        .div [.small ("Report Handle: " ++ handle)],
        .markdownC markdownContent]

/-! ## Chat callback (src/dash_app.py, lines 280-421) -/

/-- The invocation a conversation turn issues: `run_query` constructs a
fresh client (id `w.nextClientId`), connects it, and calls
`analyze_territories(query)` with no explicit thread id, so the config
carries the fresh client's own default thread id. -/
def turnInvocation (sessionId q : String) (w : WorldState) : Invocation :=
  { clientId := w.nextClientId
    threadId := some ("conversation_" ++ sessionId)
    userText := q }

/-- The `run_query` coroutine inside `process_query` (src/dash_app.py,
lines 301-314): construct a new `SimpleMCPClient` (its random
`session_id` is the external `sessionId` argument), `connect()`, call
`analyze_territories(query)`, and close the client. -/
def processTurn (sessionId q : String)
    (oracle : Invocation → Except String AgentResponse) (w : WorldState) :
    Except String String × WorldState :=
  let cw := SimpleMCPClient.init sessionId w
  let c := cw.1.connect
  analyze_territories c q none oracle cw.2

/-- `process_query` (src/dash_app.py, lines 280-421), the chat callback.
Outputs are `(conversation children, query-input value, left panel
children)`.  The guard requires a click or submit and a query that is
non-empty and not all whitespace; the `try` covers the whole cycle and
its `except` branch prepends an error and the user's message while
returning the left panel state unchanged. -/
def process_query (nClicks : Nat) (nSubmit : Bool) (query : Option String)
    (conv : Option (List Component)) (left : List Component)
    (sessionId fetchSessionId : String)
    (parse : String → Option (List (String × String)))
    (oracle : Invocation → Except String AgentResponse) (w : WorldState) :
    (List Component × String × List Component) × WorldState :=
  match query with
  | none => ((conv.getD [], "", left), w)
  | some q =>
    if (decide (0 < nClicks) || nSubmit) && (!(q == "") && !(isBlankStr q)) then
      match processTurn sessionId q oracle w with
      | (.error e, w1) =>
        ((errorMessageDiv e :: userMessageDiv q :: conv.getD [], "", left), w1)
      | (.ok agentResponse, w1) =>
        match extract_report_handle agentResponse with
        | some handle =>
          let mw := fetch_report_content handle fetchSessionId parse oracle w1
          ((agentMessageDiv agentResponse :: userMessageDiv q :: conv.getD [],
            "", [reportDisplayDiv handle mw.1]), mw.2)
        | none =>
          ((agentMessageDiv agentResponse :: userMessageDiv q :: conv.getD [],
            "", left), w1)
    else ((conv.getD [], q, left), w)

/-! ## Report renderer (src/report_display.py, lines 72-119)

`markdown.markdown` is an external formatter and is modelled by the `md`
parameter (`.error e` standing for a raised formatting exception).  The
source computes `html_content` and then discards it, rendering
`dcc.Markdown(content)` with the raw content; the model keeps that
behaviour. -/

/-- `ReportDisplay._create_empty_state` (src/report_display.py,
lines 54-70). -/
def emptyStateDiv : Component :=
  .div [.div [.icon,
              .h6 "No Report Available",
              .para "Start a conversation with the AI assistant to generate territory analysis reports. Reports will appear here automatically when generated."]]

/-- The warning panel of `format_markdown_for_dash`'s `except` branch. -/
def warningPanel (e : String) : Component :=
  .div [.alert [.h6 "Error Displaying Report",
                .para ("Could not format the report content: " ++ e),
                .hrule,
                .para "Please try regenerating the report."]]

/-- `True` when the component tree visibly has children. -/
def nonEmptyComponent : Component → Bool
  | .div l => !l.isEmpty
  | .alert l => !l.isEmpty
  | _ => true

/-- `ReportDisplay.format_markdown_for_dash` (src/report_display.py,
lines 72-119), with `content = none` standing for Python `None`. -/
def format_markdown_for_dash (md : String → Except String String)
    (content : Option String) : Component :=
  match content with
  | none => emptyStateDiv
  | some c =>
    if c == "" || isBlankStr c then emptyStateDiv
    else
      match md c with
      | .ok _htmlContent => .div [.markdownC c]
      | .error e => warningPanel e

/-! ## Lemmas about the reversed message scans -/

lemma extractLoop_eq_head (l : List Message) :
    extractLoop l = ((l.filter goodMsg).head?).map Message.content := by
  induction l with
  | nil => rfl
  | cons m rest ih =>
    by_cases h : goodMsg m
    · simp [extractLoop, h, List.filter_cons]
    · simp [extractLoop, h, List.filter_cons, ih]

lemma extractLoop_reverse (ms : List Message) :
    extractLoop ms.reverse = ((ms.filter goodMsg).getLast?).map Message.content := by
  rw [extractLoop_eq_head, List.filter_reverse, List.head?_reverse]

lemma extractLoop_some_ne_empty {l : List Message} {s : String}
    (h : extractLoop l = some s) : s ≠ "" := by
  induction l with
  | nil => simp [extractLoop] at h
  | cons m rest ih =>
    by_cases hg : goodMsg m
    · simp only [extractLoop, hg, if_true, Option.some.injEq] at h
      subst h
      have hg' := hg
      simp only [goodMsg, Bool.and_eq_true, bne_iff_ne, Bool.not_eq_true',
        beq_eq_false_iff_ne, ne_eq] at hg'
      exact hg'.1.2
    · simp only [extractLoop, hg, if_false] at h
      exact ih h

lemma extract_final_response_ne_empty (r : AgentResponse) :
    extract_final_response r ≠ "" := by
  cases r with
  | other => simp [extract_final_response, cannedNotDict]
  | withMessages ms =>
    simp only [extract_final_response]
    cases h : extractLoop ms.reverse with
    | none => simp [cannedNoVisible]
    | some c => simpa using extractLoop_some_ne_empty h

lemma analyze_territories_snd (c : SimpleMCPClient) (q : String)
    (tid : Option String) (oracle : Invocation → Except String AgentResponse)
    (w : WorldState) (hconn : c.connected = true) :
    (analyze_territories c q tid oracle w).2 =
      { w with invocations := w.invocations ++ [analyzeInvocation c q tid] } := by
  unfold analyze_territories
  simp only [hconn, if_true]
  cases oracle (analyzeInvocation c q tid) <;> rfl

lemma fetch_report_content_snd (handle sid : String)
    (parse : String → Option (List (String × String)))
    (oracle : Invocation → Except String AgentResponse) (w : WorldState) :
    (fetch_report_content handle sid parse oracle w).2 =
      { nextClientId := w.nextClientId + 1,
        invocations := w.invocations ++ [fetchInvocation handle w] } := by
  show (match oracle (fetchInvocation handle w) with
        | Except.error e => ("Error loading report: " ++ e,
            ({ nextClientId := w.nextClientId + 1,
               invocations := w.invocations ++ [fetchInvocation handle w] } : WorldState))
        | Except.ok r => (fetch_parse_response parse r,
            ({ nextClientId := w.nextClientId + 1,
               invocations := w.invocations ++ [fetchInvocation handle w] } : WorldState))).2 =
      { nextClientId := w.nextClientId + 1,
        invocations := w.invocations ++ [fetchInvocation handle w] }
  cases oracle (fetchInvocation handle w) <;> rfl

/-! ## Claims -/

/-- **C3** — Final-message extraction: for every agent response that is
a dict with a `'messages'` list, `_extract_final_response` returns the
content of the last message whose class string marks it as AI-authored
and whose content is non-empty after trimming whitespace; when no such
message exists it returns the canned completion string.  (The embedding
is a total function, so the extraction never raises.) -/
theorem c3_final_message_extraction (ms : List Message) :
    extract_final_response (AgentResponse.withMessages ms) =
      ((((ms.filter goodMsg).getLast?).map Message.content).getD cannedNoVisible) := by
  simp only [extract_final_response]
  rw [extractLoop_reverse]
  cases (ms.filter goodMsg).getLast? <;> simp

/-- **C1 counterexample** — a connected client, a non-empty query, and
an agent invocation that fails: `analyze_territories` propagates the
failure as an exception (`Except.error`) instead of returning a
human-readable error string, so the claim "never raises, converts any
failure into an error string" is false on the code (the function body
has no `try`/`except`). -/
theorem c1_counterexample :
    ("analyze the territories" ≠ "") ∧
    (analyze_territories
        { clientId := 0, session_id := "s",
          default_thread_id := "conversation_s", connected := true }
        "analyze the territories" none
        (fun _ => Except.error "Connection closed")
        { nextClientId := 1, invocations := [] }).1 =
      Except.error "Connection closed" :=
  ⟨by decide, rfl⟩

/-- **C1 (amended)** — for every non-empty query on a connected client
whose single agent invocation succeeds, `analyze_territories` returns a
non-empty string (never `None`); but a failing invocation propagates to
the caller as an exception, and calling without a prior `connect()`
raises `ValueError` (conversion of failures to apology strings happens
in the UI callback, not here). -/
theorem c1_analyze_nonempty (c : SimpleMCPClient) (q : String)
    (tid : Option String) (oracle : Invocation → Except String AgentResponse)
    (w : WorldState) (r : AgentResponse)
    (_hq : q ≠ "") (hconn : c.connected = true)
    (hok : oracle (analyzeInvocation c q tid) = Except.ok r) :
    (analyze_territories c q tid oracle w).1 =
        Except.ok (extract_final_response r) ∧
      extract_final_response r ≠ "" := by
  constructor
  · unfold analyze_territories
    rw [hconn]
    simp [hok]
  · exact extract_final_response_ne_empty r

/-- **C1 witness** — the amended theorem applied at a concrete connected
client and a concrete successful invocation. -/
theorem c1_analyze_nonempty_witness :
    (analyze_territories
        { clientId := 0, session_id := "s",
          default_thread_id := "conversation_s", connected := true }
        "make territories" none (fun _ => Except.ok AgentResponse.other)
        { nextClientId := 1, invocations := [] }).1 =
      Except.ok (extract_final_response AgentResponse.other) ∧
    extract_final_response AgentResponse.other ≠ "" :=
  c1_analyze_nonempty _ "make territories" none _ _ AgentResponse.other
    (by decide) rfl rfl

/-- **C2 counterexample** — two consecutive conversation turns through
the chat callback, run at concrete inputs from a fresh process state:
the two agent invocations are issued by two different client objects
(ids 0 and 1) and a second client/connection is constructed, so the
claim that all turns are serialized through one process-wide singleton
connection and agent is false on the code (`process_query` builds a new
`SimpleMCPClient` inside every call). -/
theorem c2_counterexample :
    (((process_query 1 false (some "now expand the hubs") none []
        "s1" "f1" (fun _ => none) (fun _ => Except.ok AgentResponse.other)
        ((process_query 1 false (some "make 6 territories") none []
          "s1" "f1" (fun _ => none) (fun _ => Except.ok AgentResponse.other)
          { nextClientId := 0, invocations := [] }).2)).2).invocations.map
          Invocation.clientId = [0, 1])
    ∧ (((process_query 1 false (some "now expand the hubs") none []
        "s1" "f1" (fun _ => none) (fun _ => Except.ok AgentResponse.other)
        ((process_query 1 false (some "make 6 territories") none []
          "s1" "f1" (fun _ => none) (fun _ => Except.ok AgentResponse.other)
          { nextClientId := 0, invocations := [] }).2)).2).nextClientId = 2)
    ∧ ¬ ((0 : Nat) = 1) := by
  refine ⟨rfl, rfl, by decide⟩

/-- **C2 (amended)** — the session client's connection and agent are
*not* process-wide singletons: every conversation turn's `run_query`
lazily constructs its own fresh `SimpleMCPClient` (a new connection and
agent), issues exactly one invocation through it under that client's own
default thread id, and closes it at the end of the turn. -/
theorem c2_fresh_client_per_turn (sid q : String)
    (oracle : Invocation → Except String AgentResponse) (w : WorldState) :
    ((processTurn sid q oracle w).2).nextClientId = w.nextClientId + 1
    ∧ ((processTurn sid q oracle w).2).invocations =
        w.invocations ++ [turnInvocation sid q w]
    ∧ (turnInvocation sid q w).clientId = w.nextClientId := by
  have h2 := analyze_territories_snd ((SimpleMCPClient.init sid w).1.connect) q none
      oracle (SimpleMCPClient.init sid w).2 rfl
  refine ⟨?_, ?_, rfl⟩
  · show ((analyze_territories ((SimpleMCPClient.init sid w).1.connect) q none
        oracle (SimpleMCPClient.init sid w).2).2).nextClientId = w.nextClientId + 1
    rw [h2]
    rfl
  · show ((analyze_territories ((SimpleMCPClient.init sid w).1.connect) q none
        oracle (SimpleMCPClient.init sid w).2).2).invocations =
      w.invocations ++ [turnInvocation sid q w]
    rw [h2]
    rfl

/-- **C5 counterexample** — a conversation turn (client 0, thread id
`conversation_s1`) followed by handle resolution at concrete inputs:
`fetch_report_content` issues its invocation from a brand-new client
(id 1) and with no thread id at all, so the claim that resolution reuses
the same session client and the same thread id as the conversation that
produced the handle is false on the code. -/
theorem c5_counterexample :
    ((fetch_report_content "report_data_8821" "s2" (fun _ => none)
        (fun _ => Except.ok AgentResponse.other)
        ((processTurn "s1" "make a report" (fun _ => Except.ok AgentResponse.other)
          { nextClientId := 0, invocations := [] }).2)).2).invocations.map
        (fun i => (i.clientId, i.threadId)) =
      [(0, some "conversation_s1"), (1, none)]
    ∧ ¬ ((some "conversation_s1" : Option String) = none)
    ∧ ¬ ((0 : Nat) = 1) := by
  refine ⟨rfl, by decide, by decide⟩

/-- **C5 (amended)** — handle resolution does *not* reuse the
conversation's client or thread: `fetch_report_content` constructs a
fresh `SimpleMCPClient` (the next client id) and issues its single agent
invocation with no `config`, hence no thread id, so the resolution call
does not consult the memory checkpoint of the conversation that produced
the handle. -/
theorem c5_resolution_fresh_client_no_thread (handle sid : String)
    (parse : String → Option (List (String × String)))
    (oracle : Invocation → Except String AgentResponse) (w : WorldState) :
    ((fetch_report_content handle sid parse oracle w).2).invocations =
        w.invocations ++ [fetchInvocation handle w]
    ∧ (fetchInvocation handle w).clientId = w.nextClientId
    ∧ (fetchInvocation handle w).threadId = none
    ∧ ((fetch_report_content handle sid parse oracle w).2).nextClientId =
        w.nextClientId + 1 := by
  rw [fetch_report_content_snd]
  exact ⟨rfl, rfl, rfl, rfl⟩

/-- **C6** — `analyze_territories_with_file_handle` performs exactly one
agent invocation per (connected) call, and both fields of its result
dict are derived from that single invocation's response: `response` is
the extracted final answer and `raw_content` is the unmodified message
content (or response object) of the same response, with no second remote
call. -/
theorem c6_single_invocation_both_fields (c : SimpleMCPClient) (q : String)
    (tid : Option String) (oracle : Invocation → Except String AgentResponse)
    (w : WorldState) (hconn : c.connected = true) :
    ((analyze_territories_with_file_handle c q tid oracle w).2).invocations =
        w.invocations ++ [analyzeInvocation c q tid]
    ∧ ∀ r, oracle (analyzeInvocation c q tid) = Except.ok r →
        (analyze_territories_with_file_handle c q tid oracle w).1 =
          Except.ok { response := extract_final_response r
                      raw_content := extract_file_handle_from_response r } := by
  unfold analyze_territories_with_file_handle
  rw [hconn]
  constructor
  · cases h : oracle (analyzeInvocation c q tid) <;> simp [h]
  · intro r hr
    simp [hr]

/-- **C6 witness** — the theorem applied at a concrete connected client
and a concrete successful response carrying one AI message. -/
theorem c6_single_invocation_both_fields_witness :
    ((analyze_territories_with_file_handle
        { clientId := 3, session_id := "s",
          default_thread_id := "conversation_s", connected := true }
        "make 6 territories" none
        (fun _ => Except.ok (AgentResponse.withMessages
          [{ className := "<class 'langchain_core.messages.ai.AIMessage'>",
             content := "All done." }]))
        { nextClientId := 4, invocations := [] }).2).invocations =
      [] ++ [analyzeInvocation
        { clientId := 3, session_id := "s",
          default_thread_id := "conversation_s", connected := true }
        "make 6 territories" none]
    ∧ ∀ r, (fun _ => Except.ok (AgentResponse.withMessages
          [{ className := "<class 'langchain_core.messages.ai.AIMessage'>",
             content := "All done." }]) :
            Invocation → Except String AgentResponse)
          (analyzeInvocation
            { clientId := 3, session_id := "s",
              default_thread_id := "conversation_s", connected := true }
            "make 6 territories" none) = Except.ok r →
        (analyze_territories_with_file_handle
          { clientId := 3, session_id := "s",
            default_thread_id := "conversation_s", connected := true }
          "make 6 territories" none
          (fun _ => Except.ok (AgentResponse.withMessages
            [{ className := "<class 'langchain_core.messages.ai.AIMessage'>",
               content := "All done." }]))
          { nextClientId := 4, invocations := [] }).1 =
          Except.ok { response := extract_final_response r
                      raw_content := extract_file_handle_from_response r } :=
  c6_single_invocation_both_fields _ "make 6 territories" none _ _ rfl

lemma fetchLoop_eq_head (parse : String → Option (List (String × String)))
    (l : List Message) :
    fetchLoop parse l = ((l.filter goodFetchMsg).head?).map
      (fun m => parse_report_reply parse m.content) := by
  induction l with
  | nil => rfl
  | cons m rest ih =>
    by_cases h : goodFetchMsg m
    · simp [fetchLoop, h, List.filter_cons]
    · simp [fetchLoop, h, List.filter_cons, ih]

lemma fetchLoop_reverse (parse : String → Option (List (String × String)))
    (ms : List Message) :
    fetchLoop parse ms.reverse = ((ms.filter goodFetchMsg).getLast?).map
      (fun m => parse_report_reply parse m.content) := by
  rw [fetchLoop_eq_head, List.filter_reverse, List.head?_reverse]

lemma fetch_report_content_fst (handle sid : String)
    (parse : String → Option (List (String × String)))
    (oracle : Invocation → Except String AgentResponse) (w : WorldState)
    (ms : List Message) (m : Message)
    (hresp : oracle (fetchInvocation handle w) =
      Except.ok (AgentResponse.withMessages ms))
    (hm : (ms.filter goodFetchMsg).getLast? = some m) :
    (fetch_report_content handle sid parse oracle w).1 =
      parse_report_reply parse m.content := by
  show (match oracle (fetchInvocation handle w) with
        | Except.error e => ("Error loading report: " ++ e,
            ({ nextClientId := w.nextClientId + 1,
               invocations := w.invocations ++ [fetchInvocation handle w] } : WorldState))
        | Except.ok r => (fetch_parse_response parse r,
            ({ nextClientId := w.nextClientId + 1,
               invocations := w.invocations ++ [fetchInvocation handle w] } : WorldState))).1 =
      parse_report_reply parse m.content
  rw [hresp]
  simp only [fetch_parse_response]
  rw [fetchLoop_reverse, hm]
  rfl

/-- **C7** — handle resolution's reply parsing: when the final agent
reply (the last AI message with content) contains a fenced ```json block
whose body the external JSON parser accepts, the resolved content is the
`markdown_content` field of that JSON (defaulting to a fixed message
when the field is absent); when the reply has no fenced block, or the
block's body does not parse, the resolution falls back to the raw reply
text. -/
theorem c7_resolution_reply_parsing (handle sid : String)
    (parse : String → Option (List (String × String)))
    (oracle : Invocation → Except String AgentResponse) (w : WorldState)
    (ms : List Message) (m : Message)
    (hresp : oracle (fetchInvocation handle w) =
      Except.ok (AgentResponse.withMessages ms))
    (hm : (ms.filter goodFetchMsg).getLast? = some m) :
    (∀ body d, findJsonBlock m.content.data = some body →
        parse (String.mk body) = some d →
        (fetch_report_content handle sid parse oracle w).1 =
          (d.lookup "markdown_content").getD "No markdown content found")
    ∧ (findJsonBlock m.content.data = none →
        (fetch_report_content handle sid parse oracle w).1 = m.content)
    ∧ (∀ body, findJsonBlock m.content.data = some body →
        parse (String.mk body) = none →
        (fetch_report_content handle sid parse oracle w).1 = m.content) := by
  have hfst := fetch_report_content_fst handle sid parse oracle w ms m hresp hm
  refine ⟨?_, ?_, ?_⟩
  · intro body d hblock hparse
    rw [hfst]
    unfold parse_report_reply
    rw [hblock]
    simp only [hparse]
  · intro hblock
    rw [hfst]
    unfold parse_report_reply
    rw [hblock]
  · intro body hblock hparse
    rw [hfst]
    unfold parse_report_reply
    rw [hblock]
    simp only [hparse]

/-- **C7 witness** — the theorem applied at a concrete reply carrying a
fenced json block that the concrete parser accepts. -/
theorem c7_resolution_reply_parsing_witness :
    (fetch_report_content "report_data_1" "s9"
      (fun s => if s = "json_payload_1"
        then some [("markdown_content", "# Territory Report")] else none)
      (fun _ => Except.ok (AgentResponse.withMessages
        [{ className := "<class 'langchain_core.messages.ai.AIMessage'>",
           content := "Done.\n```json\njson_payload_1\n```" }]))
      { nextClientId := 0, invocations := [] }).1 = "# Territory Report" := by
  have h := (c7_resolution_reply_parsing "report_data_1" "s9"
      (fun s => if s = "json_payload_1"
        then some [("markdown_content", "# Territory Report")] else none)
      (fun _ => Except.ok (AgentResponse.withMessages
        [{ className := "<class 'langchain_core.messages.ai.AIMessage'>",
           content := "Done.\n```json\njson_payload_1\n```" }]))
      { nextClientId := 0, invocations := [] }
      [{ className := "<class 'langchain_core.messages.ai.AIMessage'>",
         content := "Done.\n```json\njson_payload_1\n```" }]
      { className := "<class 'langchain_core.messages.ai.AIMessage'>",
        content := "Done.\n```json\njson_payload_1\n```" }
      rfl (by decide)).1
      "json_payload_1".data [("markdown_content", "# Territory Report")]
      (by decide) (by decide)
  exact h.trans (by decide)

/-! ## Lemmas about the handle-regex scanner -/

lemma searchHandle_cons (c : Char) (rest : List Char) :
    searchHandle (c :: rest) =
      if phraseChars.isPrefixOf (c :: rest) then
        match scanGap ((c :: rest).drop phraseChars.length) with
        | some v => some v
        | none => searchHandle rest
      else searchHandle rest := by
  rw [searchHandle]

lemma searchHandle_of_not_contains (s : List Char)
    (h : containsPhrase s = false) : searchHandle s = none := by
  induction s with
  | nil => rfl
  | cons c rest ih =>
    have h' : (phraseChars.isPrefixOf (c :: rest) || containsSub phraseChars rest)
        = false := h
    rw [Bool.or_eq_false_iff] at h'
    rw [searchHandle_cons, h'.1]
    simp only [Bool.false_eq_true, if_false]
    exact ih h'.2

lemma scanGap_no_backtick (s : List Char) (h : ∀ c ∈ s, c ≠ btk) :
    scanGap s = none := by
  induction s with
  | nil => rfl
  | cons c rest ih =>
    have hc : c ≠ btk := h c (by simp)
    rw [scanGap, if_neg hc]
    by_cases hn : c = '\n'
    · simp [hn]
    · simp only [hn, if_false]
      exact ih (fun c' hc' => h c' (by simp [hc']))

lemma searchHandle_no_backtick (s : List Char) (h : ∀ c ∈ s, c ≠ btk) :
    searchHandle s = none := by
  induction s with
  | nil => rfl
  | cons c rest ih =>
    have hrest : ∀ c' ∈ rest, c' ≠ btk := fun c' hc' => h c' (by simp [hc'])
    rw [searchHandle_cons]
    by_cases hp : phraseChars.isPrefixOf (c :: rest) = true
    · rw [hp]
      simp only [if_true]
      rw [scanGap_no_backtick _
        (fun c' hc' => h c' (List.mem_of_mem_drop hc'))]
      exact ih hrest
    · simp only [Bool.not_eq_true] at hp
      rw [hp]
      simp only [Bool.false_eq_true, if_false]
      exact ih hrest

lemma searchHandle_append_pre (pre rest : List Char)
    (h : ∀ i, i < pre.length →
      phraseChars.isPrefixOf ((pre ++ rest).drop i) = false) :
    searchHandle (pre ++ rest) = searchHandle rest := by
  induction pre with
  | nil => rfl
  | cons c pre' ih =>
    have h0 : phraseChars.isPrefixOf (c :: (pre' ++ rest)) = false := by
      have := h 0 (by simp)
      simpa using this
    rw [List.cons_append, searchHandle_cons, h0]
    simp only [Bool.false_eq_true, if_false]
    exact ih (fun i hi => by
      have := h (i + 1) (by simpa using Nat.succ_lt_succ hi)
      simpa [List.drop_succ_cons] using this)

lemma takeWhile_no_backtick (v rest : List Char) (hv : ∀ c ∈ v, c ≠ btk) :
    (v ++ btk :: rest).takeWhile (fun c => c ≠ btk) = v := by
  induction v with
  | nil => simp [List.takeWhile]
  | cons c v' ih =>
    have hc : c ≠ btk := hv c (by simp)
    have ih' := ih (fun c' hc' => hv c' (by simp [hc']))
    simp [List.takeWhile_cons, hc]
    simpa using ih'

lemma takeDelimited_pos (v rest : List Char) (hne : v ≠ [])
    (hv : ∀ c ∈ v, c ≠ btk) :
    takeDelimited (v ++ btk :: rest) = some v := by
  unfold takeDelimited
  rw [takeWhile_no_backtick v rest hv]
  simp only [hne, if_false]
  rw [List.drop_left]
  simp

lemma scanGap_positive (gap v rest : List Char)
    (hgap : ∀ c ∈ gap, c ≠ '\n' ∧ c ≠ btk)
    (hne : v ≠ []) (hv : ∀ c ∈ v, c ≠ btk) :
    scanGap (gap ++ btk :: (v ++ btk :: rest)) = some v := by
  induction gap with
  | nil =>
    rw [List.nil_append, scanGap, if_pos rfl, takeDelimited_pos v rest hne hv]
  | cons c gap' ih =>
    obtain ⟨hn, hb⟩ := hgap c (by simp)
    rw [List.cons_append, scanGap, if_neg hb]
    simp only [hn, if_false]
    exact ih (fun c' hc' => hgap c' (by simp [hc']))

lemma scanGap_newline (a b : List Char) (ha : ∀ c ∈ a, c ≠ btk) :
    scanGap (a ++ '\n' :: b) = none := by
  induction a with
  | nil =>
    rw [List.nil_append, scanGap]
    have : ('\n' : Char) ≠ btk := by decide
    rw [if_neg this, if_pos rfl]
  | cons c a' ih =>
    have hb : c ≠ btk := ha c (by simp)
    rw [List.cons_append, scanGap, if_neg hb]
    by_cases hn : c = '\n'
    · simp [hn]
    · simp only [hn, if_false]
      exact ih (fun c' hc' => ha c' (by simp [hc']))

lemma searchHandle_phrase_pos (tail v : List Char)
    (h : scanGap tail = some v) :
    searchHandle (phraseChars ++ tail) = some v := by
  have hpre : phraseChars.isPrefixOf (phraseChars ++ tail) = true := by
    rw [ List.isPrefixOf_iff_prefix]
    exact ⟨tail, rfl⟩
  have hdrop : (phraseChars ++ tail).drop phraseChars.length = tail :=
    List.drop_left _ _
  rw [show phraseChars ++ tail = 'R' :: (phraseChars.tail ++ tail) from rfl,
      searchHandle_cons,
      show 'R' :: (phraseChars.tail ++ tail) = phraseChars ++ tail from rfl,
      hpre]
  simp only [if_true]
  rw [hdrop, h]

lemma searchHandle_phrase_neg (tail : List Char) (h : scanGap tail = none) :
    searchHandle (phraseChars ++ tail) = searchHandle (phraseChars.tail ++ tail) := by
  have hpre : phraseChars.isPrefixOf (phraseChars ++ tail) = true := by
    rw [ List.isPrefixOf_iff_prefix]
    exact ⟨tail, rfl⟩
  have hdrop : (phraseChars ++ tail).drop phraseChars.length = tail :=
    List.drop_left _ _
  rw [show phraseChars ++ tail = 'R' :: (phraseChars.tail ++ tail) from rfl,
      searchHandle_cons,
      show 'R' :: (phraseChars.tail ++ tail) = phraseChars ++ tail from rfl,
      hpre]
  simp only [if_true]
  rw [hdrop, h]

/-- **C4** — handle extraction: for a text consisting of a prefix in
which the phrase `Report Data Handle` never starts, then the phrase,
then a same-line gap free of backticks, then a back-tick-delimited
non-empty value, `extract_report_handle` returns exactly that delimited
value; for every text not containing the phrase it returns `None`; and
for every text that contains the phrase but no back-ticked value (no
backtick at all) it also returns `None`.  (The embedding is a total
function, so the extractor never throws.) -/
theorem c4_handle_extraction (pre gap v rest : List Char)
    (hpre : ∀ i, i < pre.length →
        phraseChars.isPrefixOf
          ((pre ++ (phraseChars ++ (gap ++ btk :: (v ++ btk :: rest)))).drop i) = false)
    (hgap : ∀ c ∈ gap, c ≠ '\n' ∧ c ≠ btk)
    (hne : v ≠ []) (hv : ∀ c ∈ v, c ≠ btk) :
    extract_report_handle
        (String.mk (pre ++ (phraseChars ++ (gap ++ btk :: (v ++ btk :: rest))))) =
      some (String.mk v)
    ∧ (∀ t : String, containsPhrase t.data = false → extract_report_handle t = none)
    ∧ (∀ t : String, containsPhrase t.data = true → (∀ c ∈ t.data, c ≠ btk) →
        extract_report_handle t = none) := by
  refine ⟨?_, ?_, ?_⟩
  · show (searchHandle
        (pre ++ (phraseChars ++ (gap ++ btk :: (v ++ btk :: rest))))).map
        (fun l => String.mk l) = some (String.mk v)
    rw [searchHandle_append_pre pre _ hpre,
        searchHandle_phrase_pos _ v (scanGap_positive gap v rest hgap hne hv)]
    rfl
  · intro t ht
    show (searchHandle t.data).map (fun l => String.mk l) = none
    rw [searchHandle_of_not_contains t.data ht]
    rfl
  · intro t _ hb
    show (searchHandle t.data).map (fun l => String.mk l) = none
    rw [searchHandle_no_backtick t.data hb]
    rfl

/-- **C4 witness** — the theorem at a concrete reply: the back-ticked
value after the phrase is returned; a phrase-free text and a
backtick-free text give `None`. -/
theorem c4_handle_extraction_witness :
    extract_report_handle
        (String.mk ("Saved. ".data ++ (phraseChars ++
          (": ".data ++ btk :: ("report_handle_7".data ++ btk :: " end.".data))))) =
      some (String.mk "report_handle_7".data)
    ∧ extract_report_handle "No handle in this reply." = none
    ∧ extract_report_handle "Report Data Handle: none was produced" = none := by
  have h := c4_handle_extraction "Saved. ".data ": ".data "report_handle_7".data
    " end.".data (by decide) (by decide) (by decide) (by decide)
  exact ⟨h.1, h.2.1 "No handle in this reply." (by decide),
    h.2.2 "Report Data Handle: none was produced" (by decide) (by decide)⟩

/-- **C10** — the extraction pattern does not match across line breaks:
when the only occurrence of the phrase `Report Data Handle` is separated
from the next back-tick-delimited value by a newline (the characters
between the phrase and the newline contain no backtick, and the phrase
does not reoccur later), `extract_report_handle` returns `None`, because
the regex's `.*?` gap is compiled without `DOTALL` and cannot cross the
newline. -/
theorem c10_newline_blocks_match (pre a b : List Char)
    (hpre : ∀ i, i < pre.length →
        phraseChars.isPrefixOf
          ((pre ++ (phraseChars ++ (a ++ '\n' :: b))).drop i) = false)
    (hafter : containsPhrase (phraseChars.tail ++ (a ++ '\n' :: b)) = false)
    (ha : ∀ c ∈ a, c ≠ btk) :
    extract_report_handle
      (String.mk (pre ++ (phraseChars ++ (a ++ '\n' :: b)))) = none := by
  show (searchHandle (pre ++ (phraseChars ++ (a ++ '\n' :: b)))).map
      (fun l => String.mk l) = none
  rw [searchHandle_append_pre pre _ hpre,
      searchHandle_phrase_neg _ (scanGap_newline a b ha),
      searchHandle_of_not_contains _ hafter]
  rfl

/-- **C10 witness** — a newline between the phrase and the back-ticked
value: extraction yields `None` even though the back-ticked value is
present on the next line. -/
theorem c10_newline_blocks_match_witness :
    extract_report_handle
      (String.mk ("Result ".data ++ (phraseChars ++
        (" is ready".data ++ '\n' :: "`report_handle_7` here".data)))) = none :=
  c10_newline_blocks_match "Result ".data " is ready".data
    "`report_handle_7` here".data (by decide) (by decide) (by decide)

/-- **C8** — the report renderer is total (the embedding is a function,
so it never raises): `None` content and content that strips to empty
render the empty state; and whenever the external markdown formatter
fails on some content, the renderer returns the warning-panel fallback,
a non-empty structure, instead of propagating the failure. -/
theorem c8_renderer_never_raises (md : String → Except String String) :
    format_markdown_for_dash md none = emptyStateDiv
    ∧ (∀ c : String, isBlankStr c = true →
        format_markdown_for_dash md (some c) = emptyStateDiv)
    ∧ (∀ c e, isBlankStr c = false → md c = Except.error e →
        format_markdown_for_dash md (some c) = warningPanel e
        ∧ nonEmptyComponent (warningPanel e) = true) := by
  refine ⟨rfl, ?_, ?_⟩
  · intro c hc
    simp [format_markdown_for_dash, hc]
  · intro c e hc hmd
    have hne : (c == "") = false := by
      cases hq : c == ""
      · rfl
      · exfalso
        have : c = "" := by simpa using hq
        rw [this] at hc
        exact absurd hc (by decide)
    refine ⟨?_, rfl⟩
    simp [format_markdown_for_dash, hne, hc, hmd]

/-- **C8 witness** — the theorem at a concrete failing formatter and a
concrete malformed markdown text. -/
theorem c8_renderer_never_raises_witness :
    format_markdown_for_dash (fun _ => Except.error "bad fence") none = emptyStateDiv
    ∧ format_markdown_for_dash (fun _ => Except.error "bad fence") (some "   ") =
        emptyStateDiv
    ∧ format_markdown_for_dash (fun _ => Except.error "bad fence")
        (some "```unterminated fence") = warningPanel "bad fence"
    ∧ nonEmptyComponent (warningPanel "bad fence") = true := by
  have h := c8_renderer_never_raises (fun _ => Except.error "bad fence")
  have h3 := h.2.2 "```unterminated fence" "bad fence" (by decide) rfl
  exact ⟨h.1, h.2.1 "   " (by decide), h3.1, h3.2⟩

lemma processTurn_error_eq (sid q : String)
    (oracle : Invocation → Except String AgentResponse) (w : WorldState)
    (e : String) (herr : oracle (turnInvocation sid q w) = Except.error e) :
    processTurn sid q oracle w =
      (Except.error e,
       { nextClientId := w.nextClientId + 1,
         invocations := w.invocations ++ [turnInvocation sid q w] }) := by
  show (match oracle (turnInvocation sid q w) with
        | Except.error e => ((Except.error e : Except String String),
            ({ nextClientId := w.nextClientId + 1,
               invocations := w.invocations ++ [turnInvocation sid q w] } : WorldState))
        | Except.ok r => (Except.ok (extract_final_response r),
            ({ nextClientId := w.nextClientId + 1,
               invocations := w.invocations ++ [turnInvocation sid q w] } : WorldState))) =
      (Except.error e,
       { nextClientId := w.nextClientId + 1,
         invocations := w.invocations ++ [turnInvocation sid q w] })
  rw [herr]

lemma process_query_some (nClicks : Nat) (nSubmit : Bool) (q : String)
    (conv : Option (List Component)) (left : List Component)
    (sid fsid : String) (parse : String → Option (List (String × String)))
    (oracle : Invocation → Except String AgentResponse) (w : WorldState) :
    process_query nClicks nSubmit (some q) conv left sid fsid parse oracle w =
      if ((decide (0 < nClicks) || nSubmit) && (!(q == "") && !(isBlankStr q))) = true then
        match processTurn sid q oracle w with
        | (Except.error e, w1) =>
          ((errorMessageDiv e :: userMessageDiv q :: conv.getD [], "", left), w1)
        | (Except.ok agentResponse, w1) =>
          match extract_report_handle agentResponse with
          | some handle =>
            ((agentMessageDiv agentResponse :: userMessageDiv q :: conv.getD [], "",
              [reportDisplayDiv handle
                (fetch_report_content handle fsid parse oracle w1).1]),
             (fetch_report_content handle fsid parse oracle w1).2)
          | none =>
            ((agentMessageDiv agentResponse :: userMessageDiv q :: conv.getD [],
              "", left), w1)
      else ((conv.getD [], q, left), w) := rfl

/-- **C9** — for every valid submission on which the query-processing
cycle raises an exception, the chat callback returns the left report
panel exactly equal to its input state, clears the input box, and
prepends the error message and the user's message to the conversation
list. -/
theorem c9_exception_leaves_panel_unchanged (nClicks : Nat) (nSubmit : Bool)
    (q : String) (conv : Option (List Component)) (left : List Component)
    (sid fsid : String) (parse : String → Option (List (String × String)))
    (oracle : Invocation → Except String AgentResponse) (w : WorldState)
    (e : String)
    (hsubmit : 0 < nClicks ∨ nSubmit = true)
    (hq1 : (q == "") = false) (hq2 : isBlankStr q = false)
    (herr : oracle (turnInvocation sid q w) = Except.error e) :
    (process_query nClicks nSubmit (some q) conv left sid fsid parse oracle w).1 =
      (errorMessageDiv e :: userMessageDiv q :: conv.getD [], "", left) := by
  have h1 : (decide (0 < nClicks) || nSubmit) = true := by
    rcases hsubmit with h | h
    · simp [h]
    · simp [h]
  rw [process_query_some, if_pos (by simp [h1, hq1, hq2]),
    processTurn_error_eq sid q oracle w e herr]

/-- **C9 witness** — the theorem at a concrete submission whose remote
invocation raises: the panel passed in comes back unchanged. -/
theorem c9_exception_leaves_panel_unchanged_witness :
    (process_query 1 false (some "make territories") none [emptyStateDiv]
        "s1" "f1" (fun _ => none)
        (fun _ => Except.error "MCP server unreachable")
        { nextClientId := 0, invocations := [] }).1 =
      (errorMessageDiv "MCP server unreachable" ::
        userMessageDiv "make territories" :: [], "", [emptyStateDiv]) :=
  c9_exception_leaves_panel_unchanged 1 false "make territories" none
    [emptyStateDiv] "s1" "f1" (fun _ => none)
    (fun _ => Except.error "MCP server unreachable")
    { nextClientId := 0, invocations := [] } "MCP server unreachable"
    (Or.inl (by decide)) rfl (by decide) rfl

end DashApp
